import Mathlib

/-!
Shallow embedding of the table handle cache with multi-directory resolution
(src/db/table_cache.cc) of the leveldb fork, together with theorems about
its directory-search, caching, iteration and invalidation behaviour.

External collaborators (filesystem, table parser, the generic LRU cache,
the filename builder and the fixed-64 key encoder) are not part of src/;
they are modelled from the specification's interface contracts, with
filesystem opens and table parses passed in as function parameters
(oracles) so that every theorem quantifies over their behaviour.
-/

set_option autoImplicit false

namespace LevelDB

/-- Error component of a non-OK Status. The C++ code branches only on
ok-vs-not-ok, so a Status is modelled as Except ErrS with ErrS the non-OK
payload (NotFound / IOError / Corruption per the spec's error taxonomy). -/
inductive ErrS : Type where
  | notFound (msg : String)
  | ioError (msg : String)
  | corruption (msg : String)
  deriving DecidableEq, Repr

/-- Subset of leveldb Options read by TableCache::FindTable:
enable_multi_disk and data_dirs. -/
structure Options where
  enable_multi_disk : Bool
  data_dirs : List String
  deriving DecidableEq, Repr

/-- Read options are passed through to the table parser opaquely. -/
structure ReadOptions where
  verify_checksums : Bool := false
  fill_cache : Bool := true
  deriving DecidableEq, Repr

/-- Modelled from the spec: the engine's filename builder (db/filename,
not under src/) produces the current-convention name "<number>.ldb" inside
the given directory. -/
def TableFileName (dir : String) (number : Nat) : String :=
  dir ++ "/" ++ toString number ++ ".ldb"

/-- Modelled from the spec: the legacy-convention name "<number>.sst"
inside the given directory (db/filename, not under src/). -/
def SSTTableFileName (dir : String) (number : Nat) : String :=
  dir ++ "/" ++ toString number ++ ".sst"

/-- Modelled from the spec: the fixed-width deterministic 8-byte encoding
of the 64-bit file identifier used as the cache key (util/coding
EncodeFixed64, little-endian; the spec only requires a deterministic,
collision-free fixed-width encoding). -/
def EncodeFixed64 (n : Nat) : List Nat :=
  (List.range 8).map (fun i => n / 256 ^ i % 256)

/-- Linear scan for a directory name, mirroring the loop inside the
push_unique_dir lambda of FindTable. -/
def containsDir : List String → String → Bool
  | [], _ => false
  | d :: ds, x => if d = x then true else containsDir ds x

/-- Embedding of the push_unique_dir lambda in FindTable: skip empty
names, skip names already present, otherwise append. -/
def pushUniqueDir (dirs : List String) (dir : String) : List String :=
  if dir = "" then dirs
  else if containsDir dirs dir then dirs
  else dirs ++ [dir]

/-- Directory search path computed by FindTable on a cache miss: when
multi-disk is enabled and data_dirs is nonempty, push the n alternates in
circular order starting at file_number mod n, then always push the main
DB directory last. -/
def searchDirs (o : Options) (dbname : String) (file_number : Nat) : List String :=
  let base : List String :=
    if o.enable_multi_disk ∧ o.data_dirs ≠ [] then
      let n := o.data_dirs.length
      let start := file_number % n
      (List.range n).foldl
        (fun acc i => pushUniqueDir acc (o.data_dirs.getD ((start + i) % n) "")) []
    else []
  pushUniqueDir base dbname

/-- Circular rotation of the alternate list starting at identifier mod N,
as the spec describes the probe order. -/
def specRotation (dataDirs : List String) (id : Nat) : List String :=
  let n := dataDirs.length
  (List.range n).map (fun i => dataDirs.getD ((id % n + i) % n) "")

/-- Keep-first de-duplication: drops any directory name that repeats. -/
def dedupFirst (l : List String) : List String :=
  l.foldl (fun acc d => if containsDir acc d then acc else acc ++ [d]) []

/-- Keep-first de-duplication that also drops empty directory names. -/
def dedupDropEmpty (l : List String) : List String :=
  l.foldl (fun acc d => if d = "" ∨ containsDir acc d then acc else acc ++ [d]) []

/-- Directory search path exactly as the claim words it: probe all N
alternates in circular order from identifier mod N, drop any name that
repeats, append the primary directory at the end if not already present;
with multi-disk disabled or no alternates, exactly the primary directory. -/
def specSearchPath (o : Options) (primary : String) (id : Nat) : List String :=
  if o.enable_multi_disk ∧ o.data_dirs ≠ [] then
    let probes := dedupFirst (specRotation o.data_dirs id)
    if containsDir probes primary then probes else probes ++ [primary]
  else [primary]

/-- Amended spec-side search path: as specSearchPath, but empty directory
names are dropped as well (both among the rotated alternates and for the
primary directory). -/
def specSearchPathAmended (o : Options) (primary : String) (id : Nat) : List String :=
  let probes :=
    if o.enable_multi_disk ∧ o.data_dirs ≠ [] then
      dedupDropEmpty (specRotation o.data_dirs id)
    else []
  if primary = "" ∨ containsDir probes primary then probes else probes ++ [primary]

example : searchDirs ⟨true, ["a", "b", "c"]⟩ "db" 4 = ["b", "c", "a", "db"] := by decide
example : searchDirs ⟨false, ["a", "b"]⟩ "db" 4 = ["db"] := by decide
example : searchDirs ⟨true, ["", "a"]⟩ "" 0 = ["a"] := by decide
example : specSearchPath ⟨true, ["", "a"]⟩ "" 0 = ["", "a"] := by decide
example : specSearchPathAmended ⟨true, ["", "a"]⟩ "" 0 = ["a"] := by decide

/-- Value stored in the cache for a resolved table: the open file handle
and the parsed table (struct TableAndFile). -/
structure TableAndFile (F T : Type) where
  file : F
  table : T
  deriving DecidableEq, Repr

/-- Destructor registered with a cache entry. FindTable always registers
DeleteEntry, which frees the parsed table and the file handle. -/
inductive Deleter : Type where
  | noDeleter
  | deleteEntry
  deriving DecidableEq, Repr

/-- Modelled from the spec: one entry of the reference-counted Handle
Cache. refs counts outstanding client reference handles; inCache records
whether the cache's own table still maps the key to this entry. The entry
is destroyed (its deleter runs) exactly when refs = 0 and inCache = false. -/
structure CEntry (V : Type) where
  key : List Nat
  value : V
  refs : Nat
  inCache : Bool
  charge : Nat
  deleter : Deleter
  deriving DecidableEq, Repr

/-- Modelled from the spec: state of the Handle Cache. Entries are kept in
an association list from handle id to entry; destroyed logs, in order, the
(id, value) pairs whose destructor has run. -/
structure CacheState (V : Type) where
  nextId : Nat
  entries : List (Nat × CEntry V)
  destroyed : List (Nat × V)
  deriving DecidableEq, Repr

/-- Cache state with no entries. -/
def emptyCache {V : Type} : CacheState V := ⟨0, [], []⟩

/-- First entry with the given handle id, if any. -/
def lookupEntry {V : Type} : List (Nat × CEntry V) → Nat → Option (CEntry V)
  | [], _ => none
  | (i, e) :: rest, id => if i = id then some e else lookupEntry rest id

/-- Handle id of the first in-cache entry with the given key, if any. -/
def findInCache {V : Type} : List (Nat × CEntry V) → List Nat → Option Nat
  | [], _ => none
  | (i, e) :: rest, k =>
    if e.inCache = true ∧ e.key = k then some i else findInCache rest k

/-- Apply f to every entry carrying the given handle id. -/
def modifyEntry {V : Type} : List (Nat × CEntry V) → Nat → (CEntry V → CEntry V) →
    List (Nat × CEntry V)
  | [], _, _ => []
  | (j, e) :: rest, id, f =>
    if j = id then (j, f e) :: modifyEntry rest id f
    else (j, e) :: modifyEntry rest id f

/-- Detach from the cache table every in-cache entry with the given key. -/
def detachList {V : Type} : List (Nat × CEntry V) → List Nat → List (Nat × CEntry V)
  | [], _ => []
  | (j, e) :: rest, k =>
    if e.inCache = true ∧ e.key = k then
      (j, { e with inCache := false }) :: detachList rest k
    else (j, e) :: detachList rest k

/-- Split the entry list into live entries and dead ones (refs = 0 and no
longer in the cache table); dead entries are the ones whose destructor
fires now. -/
def sweepAux {V : Type} : List (Nat × CEntry V) →
    List (Nat × CEntry V) × List (Nat × V)
  | [] => ([], [])
  | (i, e) :: rest =>
    if e.refs = 0 ∧ e.inCache = false then
      ((sweepAux rest).1, (i, e.value) :: (sweepAux rest).2)
    else ((i, e) :: (sweepAux rest).1, (sweepAux rest).2)

/-- Modelled from the spec: Cache Lookup(key). On a hit, take an extra
reference on the entry and return its handle id; on a miss, return none
and leave the state unchanged. -/
def cacheLookup {V : Type} (st : CacheState V) (k : List Nat) :
    Option Nat × CacheState V :=
  match findInCache st.entries k with
  | none => (none, st)
  | some i =>
    (some i,
     { st with entries := modifyEntry st.entries i (fun e => { e with refs := e.refs + 1 }) })

/-- Modelled from the spec: Cache Insert(key, value, charge, deleter).
Any previous in-cache entry under the key is detached (and destroyed once
unreferenced); a fresh entry holding one client reference becomes the
entry of record. Returns the new handle id. -/
def cacheInsert {V : Type} (st : CacheState V) (k : List Nat) (v : V)
    (charge : Nat) (del : Deleter) : Nat × CacheState V :=
  (st.nextId,
   { nextId := st.nextId + 1,
     entries :=
       (st.nextId, ⟨k, v, 1, true, charge, del⟩) ::
         (sweepAux (detachList st.entries k)).1,
     destroyed := st.destroyed ++ (sweepAux (detachList st.entries k)).2 })

/-- Modelled from the spec: Cache Release(handle). Drops one client
reference; a detached entry whose last reference is dropped is destroyed. -/
def cacheRelease {V : Type} (st : CacheState V) (id : Nat) : CacheState V :=
  let es := modifyEntry st.entries id (fun e => { e with refs := e.refs - 1 })
  { st with entries := (sweepAux es).1, destroyed := st.destroyed ++ (sweepAux es).2 }

/-- Modelled from the spec: Cache Erase(key). Detaches any in-cache entry
under the key immediately; destruction waits for the last reference. -/
def cacheErase {V : Type} (st : CacheState V) (k : List Nat) : CacheState V :=
  let es := detachList st.entries k
  { st with entries := (sweepAux es).1, destroyed := st.destroyed ++ (sweepAux es).2 }

/-- Modelled from the spec: Cache Value(handle). -/
def cacheValue {V : Type} (st : CacheState V) (id : Nat) : Option V :=
  (lookupEntry st.entries id).map (fun e => e.value)

/-- Ghost log entry of a filesystem or parser operation performed during
resolution: an attempted random-access open of a path, or a table parse. -/
inductive ResOp : Type where
  | openFile (path : String)
  | parseTable
  deriving DecidableEq, Repr

/-- Boolean success test for an Except value. -/
def exceptIsOk {ε α : Type} : Except ε α → Bool
  | .ok _ => true
  | .error _ => false

instance {ε α : Type} [DecidableEq ε] [DecidableEq α] : DecidableEq (Except ε α) := by
  intro x y
  cases x <;> cases y
  case error.error a b =>
    exact if h : a = b then .isTrue (by rw [h]) else .isFalse (by simp [h])
  case error.ok a b => exact .isFalse (by simp)
  case ok.error a b => exact .isFalse (by simp)
  case ok.ok a b =>
    exact if h : a = b then .isTrue (by rw [h]) else .isFalse (by simp [h])

/-- Probe of one candidate directory, lines 78-92 of table_cache.cc: try
the modern .ldb name first; if that open fails, try the legacy .sst name,
and when the legacy open also fails keep the first (modern-name) error;
on any successful open, parse the table with the expected file size.
Returns the outcome together with the ghost operation log. -/
def probeDir {F T : Type} (openF : String → Except ErrS F)
    (parseF : F → Nat → Except ErrS T) (file_number file_size : Nat)
    (dir : String) : Except ErrS (TableAndFile F T) × List ResOp :=
  let fname := TableFileName dir file_number
  match openF fname with
  | .ok f =>
    ((parseF f file_size).map (fun t => ⟨f, t⟩),
     [.openFile fname, .parseTable])
  | .error e =>
    let old_fname := SSTTableFileName dir file_number
    match openF old_fname with
    | .ok f =>
      ((parseF f file_size).map (fun t => ⟨f, t⟩),
       [.openFile fname, .openFile old_fname, .parseTable])
    | .error _ => (.error e, [.openFile fname, .openFile old_fname])

/-- Result of FindTable: the returned status with the handle on success,
the cache state after the call, and the ghost log of filesystem/parser
operations performed. -/
structure FTOut (F T : Type) where
  result : Except ErrS Nat
  state : CacheState (TableAndFile F T)
  ops : List ResOp
  deriving DecidableEq, Repr

/-- Directory loop of FindTable (lines 77-109): probe each directory in
order; on the first success insert the (file, table) pair under the key
with charge 1 and the DeleteEntry destructor and stop; on failure remember
the status as last_status and continue; when every directory failed,
return the last recorded failure. -/
def findLoop {F T : Type}
    (probe : String → Except ErrS (TableAndFile F T) × List ResOp)
    (key : List Nat) :
    List String → ErrS → CacheState (TableAndFile F T) → List ResOp → FTOut F T
  | [], last, st, ops => ⟨.error last, st, ops⟩
  | d :: ds, _last, st, ops =>
    match probe d with
    | (.ok tf, l) =>
      let ins := cacheInsert st key tf 1 .deleteEntry
      ⟨.ok ins.1, ins.2, ops ++ l⟩
    | (.error e, l) => findLoop probe key ds e st (ops ++ l)

/-- Embedding of TableCache::FindTable: encode the identifier as the
8-byte cache key; on a cache hit return the existing entry's handle with
no filesystem or parser operation; on a miss run the directory search
loop starting from the default NotFound status. -/
def FindTable {F T : Type} (openF : String → Except ErrS F)
    (parseF : F → Nat → Except ErrS T) (o : Options) (dbname : String)
    (file_number file_size : Nat) (st : CacheState (TableAndFile F T)) :
    FTOut F T :=
  let key := EncodeFixed64 file_number
  match cacheLookup st key with
  | (some h, st') => ⟨.ok h, st', []⟩
  | (none, st') =>
    findLoop (probeDir openF parseF file_number file_size) key
      (searchDirs o dbname file_number)
      (ErrS.notFound "table file not found") st' []

/-- Cleanup action registered on an iterator; UnrefEntry releases the
cache handle acquired during resolution. -/
inductive Cleanup : Type where
  | unrefEntry (handle : Nat)
  deriving DecidableEq, Repr

/-- Underlying record source of an iterator: either the error sequence
that yields no records and reports the given terminal error, or the table
parser's sequential sequence over a parsed table (with the read options
passed through). -/
inductive IterCore (T : Type) : Type where
  | errorIter (e : ErrS)
  | tableIter (t : T) (ro : ReadOptions)
  deriving DecidableEq, Repr

/-- Iterator as seen by the resolver: its record source plus the list of
registered cleanup actions, all of which run exactly once when the
iterator is destroyed (exhausted or abandoned). -/
structure IterModel (T : Type) where
  core : IterCore T
  cleanups : List Cleanup
  deriving DecidableEq, Repr

/-- Modelled from the spec: NewErrorIterator(status) yields no records and
reports the given terminal error; it has no cleanups to register. -/
def NewErrorIterator {T : Type} (e : ErrS) : IterModel T := ⟨.errorIter e, []⟩

/-- Modelled from the spec: the table parser's sequential iterator over a
parsed table; freshly created, it carries no cleanup actions yet. -/
def tableNewIterator {T : Type} (t : T) (ro : ReadOptions) : IterModel T :=
  ⟨.tableIter t ro, []⟩

/-- Iterator::RegisterCleanup appends one cleanup action. -/
def registerCleanup {T : Type} (it : IterModel T) (c : Cleanup) : IterModel T :=
  { it with cleanups := it.cleanups ++ [c] }

/-- Destruction of an iterator runs every registered cleanup, in order,
against the cache state (this happens on every exit path: exhaustion or
abandonment). -/
def runCleanups {V : Type} (st : CacheState V) (cs : List Cleanup) : CacheState V :=
  cs.foldl (fun s c => match c with | .unrefEntry h => cacheRelease s h) st

/-- Result of NewIterator: the iterator, the cache state after the call,
and the *tableptr out-parameter. -/
structure NIOut (F T : Type) where
  iter : IterModel T
  state : CacheState (TableAndFile F T)
  tableOut : Option T
  deriving DecidableEq, Repr

/-- Embedding of TableCache::NewIterator: resolve via FindTable; on
failure return the error iterator (tableptr stays null); on success build
the table's iterator, register exactly one UnrefEntry cleanup for the
acquired handle, and expose the table through tableptr. -/
def NewIterator {F T : Type} [Inhabited F] [Inhabited T]
    (openF : String → Except ErrS F) (parseF : F → Nat → Except ErrS T)
    (o : Options) (dbname : String) (ro : ReadOptions)
    (file_number file_size : Nat) (st : CacheState (TableAndFile F T)) :
    NIOut F T :=
  match FindTable openF parseF o dbname file_number file_size st with
  | ⟨.error e, st', _⟩ => ⟨NewErrorIterator e, st', none⟩
  | ⟨.ok h, st', _⟩ =>
    let t := ((cacheValue st' h).getD ⟨default, default⟩).table
    let result := registerCleanup (tableNewIterator t ro) (.unrefEntry h)
    ⟨result, st', some t⟩

/-- Embedding of TableCache::Get: resolve via FindTable; on success run
the table parser's point lookup (an oracle covering options, key and the
visit callback), release the handle unconditionally, and return the
lookup's status unchanged; on resolution failure return that failure. -/
def Get {F T : Type} [Inhabited F] [Inhabited T]
    (openF : String → Except ErrS F) (parseF : F → Nat → Except ErrS T)
    (o : Options) (dbname : String)
    (internalGet : T → Except ErrS Unit)
    (file_number file_size : Nat) (st : CacheState (TableAndFile F T)) :
    Except ErrS Unit × CacheState (TableAndFile F T) :=
  match FindTable openF parseF o dbname file_number file_size st with
  | ⟨.error e, st', _⟩ => (.error e, st')
  | ⟨.ok h, st', _⟩ =>
    let t := ((cacheValue st' h).getD ⟨default, default⟩).table
    (internalGet t, cacheRelease st' h)

/-- Embedding of TableCache::Evict: erase the entry under the 8-byte
encoding of the identifier from the cache. -/
def Evict {F T : Type} (st : CacheState (TableAndFile F T))
    (file_number : Nat) : CacheState (TableAndFile F T) :=
  cacheErase st (EncodeFixed64 file_number)

section Lemmas

variable {F T V : Type}

/-- Closed form of the push_unique_dir lambda: skip exactly the names
that are empty or already present. -/
theorem pushUniqueDir_eq (acc : List String) (d : String) :
    pushUniqueDir acc d =
      if d = "" ∨ containsDir acc d then acc else acc ++ [d] := by
  unfold pushUniqueDir
  by_cases h1 : d = ""
  · simp [h1]
  · by_cases h2 : containsDir acc d <;> simp [h1, h2]

/-- Except value that is not ok is an error. -/
theorem exceptIsOk_false_iff {ε α : Type} (x : Except ε α) :
    exceptIsOk x = false ↔ ∃ e, x = .error e := by
  cases x <;> simp [exceptIsOk]

/-- Entry found by lookupEntry is a member of the list. -/
theorem lookupEntry_mem :
    ∀ (es : List (Nat × CEntry V)) (i : Nat) (e : CEntry V),
      lookupEntry es i = some e → (i, e) ∈ es := by
  intro es
  induction es with
  | nil => intro i e h; simp [lookupEntry] at h
  | cons p rest ih =>
    intro i e h
    obtain ⟨j, f⟩ := p
    simp only [lookupEntry] at h
    by_cases hj : j = i
    · rw [if_pos hj] at h
      cases h
      subst hj
      exact List.mem_cons_self _ _
    · rw [if_neg hj] at h
      exact List.mem_cons_of_mem _ (ih i e h)

/-- Modifying the entry under a handle id is lookup-transparent. -/
theorem lookupEntry_modify (es : List (Nat × CEntry V)) (i : Nat)
    (f : CEntry V → CEntry V) :
    lookupEntry (modifyEntry es i f) i = (lookupEntry es i).map f := by
  induction es with
  | nil => simp [modifyEntry, lookupEntry]
  | cons p rest ih =>
    obtain ⟨j, e⟩ := p
    simp only [modifyEntry, lookupEntry]
    by_cases hj : j = i
    · rw [if_pos hj, lookupEntry, if_pos hj, if_pos hj]
      simp
    · rw [if_neg hj, lookupEntry, if_neg hj, if_neg hj]
      exact ih

/-- Detaching a key rewrites exactly the in-cache entries with that key,
as seen through lookupEntry. -/
theorem lookupEntry_detachList (es : List (Nat × CEntry V)) (k : List Nat)
    (i : Nat) :
    lookupEntry (detachList es k) i =
      (lookupEntry es i).map
        (fun e => if e.inCache = true ∧ e.key = k then { e with inCache := false } else e) := by
  induction es with
  | nil => simp [detachList, lookupEntry]
  | cons p rest ih =>
    obtain ⟨j, e⟩ := p
    simp only [detachList, lookupEntry]
    by_cases hd : e.inCache = true ∧ e.key = k
    · rw [if_pos hd, lookupEntry]
      by_cases hj : j = i
      · rw [if_pos hj, if_pos hj]
        simp [hd]
      · rw [if_neg hj, if_neg hj]
        exact ih
    · rw [if_neg hd, lookupEntry]
      by_cases hj : j = i
      · rw [if_pos hj, if_pos hj]
        simp [hd]
      · rw [if_neg hj, if_neg hj]
        exact ih

/-- Bumping a reference count changes no inCache flag and no key, so the
cache table scan is unaffected. -/
theorem findInCache_modify_bump (es : List (Nat × CEntry V)) (i : Nat)
    (k : List Nat) :
    findInCache (modifyEntry es i (fun e => { e with refs := e.refs + 1 })) k =
      findInCache es k := by
  induction es with
  | nil => simp [modifyEntry, findInCache]
  | cons p rest ih =>
    obtain ⟨j, e⟩ := p
    simp only [modifyEntry, findInCache]
    by_cases hj : j = i
    · rw [if_pos hj, findInCache]
      by_cases hd : e.inCache = true ∧ e.key = k
      · rw [if_pos hd, if_pos hd]
      · rw [if_neg hd, if_neg hd]
        exact ih
    · rw [if_neg hj, findInCache]
      by_cases hd : e.inCache = true ∧ e.key = k
      · rw [if_pos hd, if_pos hd]
      · rw [if_neg hd, if_neg hd]
        exact ih

/-- After detaching a key, no in-cache entry with that key remains. -/
theorem findInCache_detachList (es : List (Nat × CEntry V)) (k : List Nat) :
    findInCache (detachList es k) k = none := by
  induction es with
  | nil => simp [detachList, findInCache]
  | cons p rest ih =>
    obtain ⟨j, e⟩ := p
    simp only [detachList]
    by_cases hd : e.inCache = true ∧ e.key = k
    · rw [if_pos hd, findInCache, if_neg (by simp)]
      exact ih
    · rw [if_neg hd, findInCache, if_neg hd]
      exact ih

/-- Sweeping a list in which every entry still holds a reference removes
nothing and destroys nothing. -/
theorem sweepAux_noDead (es : List (Nat × CEntry V))
    (h : ∀ p ∈ es, 1 ≤ p.2.refs) : sweepAux es = (es, []) := by
  induction es with
  | nil => simp [sweepAux]
  | cons p rest ih =>
    obtain ⟨j, e⟩ := p
    have he : 1 ≤ e.refs := h (j, e) (List.mem_cons_self _ _)
    have hrest := ih (fun q hq => h q (List.mem_cons_of_mem _ hq))
    have hcond : ¬(e.refs = 0 ∧ e.inCache = false) := by
      rintro ⟨h0, _⟩
      omega
    simp only [sweepAux]
    rw [if_neg hcond, hrest]

/-- Dead entry (no references, detached) found by lookupEntry lands in the
destroyed output of the sweep. -/
theorem mem_sweepAux_dead (es : List (Nat × CEntry V)) (i : Nat) (e : CEntry V)
    (h : lookupEntry es i = some e) (h0 : e.refs = 0) (h1 : e.inCache = false) :
    (i, e.value) ∈ (sweepAux es).2 := by
  induction es with
  | nil => simp [lookupEntry] at h
  | cons p rest ih =>
    obtain ⟨j, f⟩ := p
    simp only [lookupEntry] at h
    by_cases hj : j = i
    · rw [if_pos hj] at h
      cases h
      subst hj
      simp only [sweepAux]
      rw [if_pos ⟨h0, h1⟩]
      exact List.mem_cons_self _ _
    · rw [if_neg hj] at h
      have hrec := ih h
      simp only [sweepAux]
      by_cases hd : f.refs = 0 ∧ f.inCache = false
      · rw [if_pos hd]
        exact List.mem_cons_of_mem _ hrec
      · rw [if_neg hd]
        exact hrec

/-- Directory loop in which every probe fails: the returned status is the
error of the LAST directory's probe, the cache state is untouched, and no
handle is produced. -/
theorem findLoop_all_fail {F T : Type}
    (probe : String → Except ErrS (TableAndFile F T) × List ResOp)
    (key : List Nat) :
    ∀ (ds : List String) (d : String) (e : ErrS) (last : ErrS)
      (st : CacheState (TableAndFile F T)) (ops : List ResOp),
      (∀ d' ∈ ds, exceptIsOk (probe d').1 = false) →
      (probe d).1 = .error e →
      (findLoop probe key (ds ++ [d]) last st ops).result = .error e ∧
        (findLoop probe key (ds ++ [d]) last st ops).state = st := by
  intro ds
  induction ds with
  | nil =>
    intro d e last st ops _ hl
    cases hp : probe d with
    | mk r l =>
      rw [hp] at hl
      simp only at hl
      subst hl
      simp [findLoop, hp]
  | cons d0 ds ih =>
    intro d e last st ops hall hl
    have h0 := (exceptIsOk_false_iff (probe d0).1).1 (hall d0 (List.mem_cons_self _ _))
    obtain ⟨e0, he0⟩ := h0
    cases hp : probe d0 with
    | mk r0 l0 =>
      rw [hp] at he0
      simp only at he0
      subst he0
      simp only [List.cons_append, findLoop, hp]
      exact ih d e e0 st (ops ++ l0)
        (fun d' hd' => hall d' (List.mem_cons_of_mem _ hd')) hl

/-- Directory loop reaching the first success: every earlier directory
fails, directory d succeeds, the pair is inserted with charge 1 and the
DeleteEntry destructor, the new handle is returned, and no directory after
d contributes any filesystem or parser operation. -/
theorem findLoop_first_success {F T : Type}
    (probe : String → Except ErrS (TableAndFile F T) × List ResOp)
    (key : List Nat) :
    ∀ (ds₁ : List String) (d : String) (ds₂ : List String)
      (tf : TableAndFile F T) (last : ErrS)
      (st : CacheState (TableAndFile F T)) (ops : List ResOp),
      (∀ d' ∈ ds₁, exceptIsOk (probe d').1 = false) →
      (probe d).1 = .ok tf →
      findLoop probe key (ds₁ ++ d :: ds₂) last st ops =
        ⟨.ok (cacheInsert st key tf 1 .deleteEntry).1,
         (cacheInsert st key tf 1 .deleteEntry).2,
         ops ++ (ds₁.map (fun d' => (probe d').2)).flatten ++ (probe d).2⟩ := by
  intro ds₁
  induction ds₁ with
  | nil =>
    intro d ds₂ tf last st ops _ hok
    cases hp : probe d with
    | mk r l =>
      rw [hp] at hok
      simp only at hok
      subst hok
      simp [findLoop, hp]
  | cons d0 ds₁ ih =>
    intro d ds₂ tf last st ops hall hok
    have h0 := (exceptIsOk_false_iff (probe d0).1).1 (hall d0 (List.mem_cons_self _ _))
    obtain ⟨e0, he0⟩ := h0
    cases hp : probe d0 with
    | mk r0 l0 =>
      rw [hp] at he0
      simp only at he0
      subst he0
      simp only [List.cons_append, findLoop, hp, List.append_eq]
      rw [ih d ds₂ tf e0 st (ops ++ l0)
        (fun d' hd' => hall d' (List.mem_cons_of_mem _ hd')) hok]
      simp [hp, List.append_assoc]

/-- Success of the directory loop always comes from inserting a fresh
entry: the handle is the state's next id and the resulting cache maps the
key to it. -/
theorem findLoop_ok_spec {F T : Type}
    (probe : String → Except ErrS (TableAndFile F T) × List ResOp)
    (key : List Nat) :
    ∀ (dirs : List String) (last : ErrS)
      (st : CacheState (TableAndFile F T)) (ops : List ResOp) (h : Nat),
      (findLoop probe key dirs last st ops).result = .ok h →
      h = st.nextId ∧
        findInCache (findLoop probe key dirs last st ops).state.entries key = some h := by
  intro dirs
  induction dirs with
  | nil =>
    intro last st ops h hres
    simp [findLoop] at hres
  | cons d dirs ih =>
    intro last st ops h hres
    cases hp : probe d with
    | mk r l =>
      cases r with
      | ok tf =>
        rw [findLoop] at hres ⊢
        rw [hp] at hres ⊢
        simp only at hres ⊢
        injection hres with hx
        subst hx
        constructor
        · rfl
        · simp [cacheInsert, findInCache]
      | error e =>
        rw [findLoop] at hres ⊢
        rw [hp] at hres ⊢
        simp only at hres ⊢
        exact ih e st (ops ++ l) h hres

/-- Successful FindTable leaves the cache mapping the encoded identifier
to the returned handle. -/
theorem FindTable_ok_findInCache {F T : Type}
    (openF : String → Except ErrS F) (parseF : F → Nat → Except ErrS T)
    (o : Options) (dbname : String) (file_number file_size : Nat)
    (st : CacheState (TableAndFile F T)) (h : Nat)
    (hres : (FindTable openF parseF o dbname file_number file_size st).result = .ok h) :
    findInCache (FindTable openF parseF o dbname file_number file_size st).state.entries
      (EncodeFixed64 file_number) = some h := by
  unfold FindTable at hres ⊢
  cases hfc : findInCache st.entries (EncodeFixed64 file_number) with
  | some i =>
    simp only [cacheLookup, hfc] at hres ⊢
    cases hres
    rw [findInCache_modify_bump]
    exact hfc
  | none =>
    simp only [cacheLookup, hfc] at hres ⊢
    exact (findLoop_ok_spec _ _ _ _ _ _ _ hres).2

/-- Cache-hit path of FindTable: the call returns OK with the existing
entry's handle, the only state change is one extra reference on that
entry, and the operation log is empty. -/
theorem FindTable_hit {F T : Type}
    (openF : String → Except ErrS F) (parseF : F → Nat → Except ErrS T)
    (o : Options) (dbname : String) (file_number file_size : Nat)
    (st : CacheState (TableAndFile F T)) (h : Nat)
    (hh : findInCache st.entries (EncodeFixed64 file_number) = some h) :
    FindTable openF parseF o dbname file_number file_size st =
      ⟨.ok h,
       { st with
          entries := modifyEntry st.entries h (fun e => { e with refs := e.refs + 1 }) },
       []⟩ := by
  unfold FindTable
  simp only [cacheLookup, hh]

end Lemmas

/-- C1: the directory search path of FindTable is a pure function of the
identifier and the configured directories, but it does NOT match the
claimed formula on every configuration: with multi-disk enabled,
alternates ["", "a"] and an empty primary name, the code drops the empty
directory name and produces ["a"], while the claimed formula (rotate,
de-duplicate repeats, append primary if absent) produces ["", "a"]. -/
theorem searchDirs_ne_specSearchPath :
    searchDirs ⟨true, ["", "a"]⟩ "" 0 = ["a"] ∧
      specSearchPath ⟨true, ["", "a"]⟩ "" 0 = ["", "a"] ∧
      searchDirs ⟨true, ["", "a"]⟩ "" 0 ≠ specSearchPath ⟨true, ["", "a"]⟩ "" 0 := by
  decide

/-- C1 (amended): for every configuration, primary directory and
identifier, the search path FindTable computes equals the spec's rotated,
de-duplicated path once de-duplication is understood to also drop empty
directory names (for the alternates and for the primary alike): rotation
of the alternates starts at identifier mod N and probes all N in circular
order when multi-disk is on and alternates exist, the primary is appended
last when non-empty and not already present, and with multi-disk off or no
alternates the path is exactly the non-empty primary. Determinism is
immediate: the path is a pure function of (configuration, primary,
identifier). -/
theorem searchDirs_eq_specSearchPathAmended (o : Options) (primary : String)
    (id : Nat) : searchDirs o primary id = specSearchPathAmended o primary id := by
  unfold searchDirs specSearchPathAmended
  by_cases h : o.enable_multi_disk = true ∧ o.data_dirs ≠ []
  · simp only [if_pos h, dedupDropEmpty, specRotation, List.foldl_map, pushUniqueDir_eq]
  · simp only [if_neg h, pushUniqueDir_eq, containsDir, or_false]

/-- C2: the claim also asserts that the primary directory is always probed
last when present, so that the final error originates from the primary's
attempt. This is false: with alternates ["db", "x"] and primary "db", the
primary coincides with an alternate and the rotation for identifier 0
probes it FIRST; when every directory fails, the returned error is the one
from probing "x" (the true last directory), not the one from probing the
primary "db". -/
theorem tc_C2_counterexample :
    searchDirs ⟨true, ["db", "x"]⟩ "db" 0 = ["db", "x"] ∧
      (FindTable (fun p => (Except.error (ErrS.ioError p) : Except ErrS Unit))
          (fun _ _ => (Except.error (ErrS.corruption "unused") : Except ErrS Unit))
          ⟨true, ["db", "x"]⟩ "db" 0 100 emptyCache).result =
        .error (.ioError "x/0.ldb") ∧
      (probeDir (fun p => (Except.error (ErrS.ioError p) : Except ErrS Unit))
          (fun _ _ => (Except.error (ErrS.corruption "unused") : Except ErrS Unit))
          0 100 "db").1 = .error (.ioError "db/0.ldb") ∧
      ErrS.ioError "x/0.ldb" ≠ ErrS.ioError "db/0.ldb" := by
  decide

/-- C2 (amended): when the cache misses and every directory in the search
path fails under both naming conventions, FindTable returns the LAST
recorded failure: the error produced while probing the final directory of
the search path (never an earlier one). Whenever the primary directory is
that final element — always the case in single-directory mode, and
whenever the primary is not produced earlier by the alternate rotation —
the caller's error therefore originates from the primary's attempt. -/
theorem tc_C2_last_failure {F T : Type}
    (openF : String → Except ErrS F) (parseF : F → Nat → Except ErrS T)
    (o : Options) (dbname : String) (file_number file_size : Nat)
    (st : CacheState (TableAndFile F T)) (ds : List String) (d : String) (e : ErrS)
    (hmiss : findInCache st.entries (EncodeFixed64 file_number) = none)
    (hpath : searchDirs o dbname file_number = ds ++ [d])
    (hfail : ∀ d' ∈ ds,
      exceptIsOk (probeDir openF parseF file_number file_size d').1 = false)
    (hlast : (probeDir openF parseF file_number file_size d).1 = .error e) :
    (FindTable openF parseF o dbname file_number file_size st).result = .error e := by
  unfold FindTable
  simp only [cacheLookup, hmiss]
  rw [hpath]
  exact (findLoop_all_fail _ _ ds d e _ _ _ hfail hlast).1

theorem tc_C2_last_failure_witness :
    findInCache (emptyCache : CacheState (TableAndFile Unit Unit)).entries
        (EncodeFixed64 0) = none ∧
      searchDirs ⟨true, ["d0", "d1"]⟩ "db" 0 = ["d0", "d1"] ++ ["db"] ∧
      (∀ d' ∈ ["d0", "d1"],
        exceptIsOk (probeDir (fun p => (Except.error (ErrS.notFound p) : Except ErrS Unit))
            (fun _ _ => (Except.ok () : Except ErrS Unit)) 0 10 d').1 = false) ∧
      (probeDir (fun p => (Except.error (ErrS.notFound p) : Except ErrS Unit))
          (fun _ _ => (Except.ok () : Except ErrS Unit)) 0 10 "db").1 =
        .error (.notFound "db/0.ldb") ∧
      (FindTable (fun p => (Except.error (ErrS.notFound p) : Except ErrS Unit))
          (fun _ _ => (Except.ok () : Except ErrS Unit))
          ⟨true, ["d0", "d1"]⟩ "db" 0 10 emptyCache).result =
        .error (.notFound "db/0.ldb") :=
  ⟨by decide, by decide, by decide, by decide,
   tc_C2_last_failure (fun p => (Except.error (ErrS.notFound p) : Except ErrS Unit))
     (fun _ _ => (Except.ok () : Except ErrS Unit)) ⟨true, ["d0", "d1"]⟩ "db" 0 10
     emptyCache ["d0", "d1"] "db" (.notFound "db/0.ldb")
     (by decide) (by decide) (by decide) (by decide)⟩

/-- C3: when the encoded identifier is in the Handle Cache, FindTable
returns OK with the handle of that same existing entry; the only state
change is one additional reference on it, the operation log is empty (no
file open, no parse — the outcome does not depend on the filesystem, the
parser, or the configured directories at all), and the entry's value is
unchanged. Consequently, after any successful FindTable, an immediately
repeated FindTable for the same identifier returns the same handle with an
empty operation log. -/
theorem tc_C3_cache_hit {F T : Type}
    (openF : String → Except ErrS F) (parseF : F → Nat → Except ErrS T)
    (o : Options) (dbname : String) (file_number file_size : Nat)
    (st : CacheState (TableAndFile F T)) (h : Nat) :
    (findInCache st.entries (EncodeFixed64 file_number) = some h →
      FindTable openF parseF o dbname file_number file_size st =
        ⟨.ok h,
         { st with
            entries := modifyEntry st.entries h (fun e => { e with refs := e.refs + 1 }) },
         []⟩ ∧
      cacheValue (FindTable openF parseF o dbname file_number file_size st).state h =
        cacheValue st h) ∧
    ((FindTable openF parseF o dbname file_number file_size st).result = .ok h →
      (FindTable openF parseF o dbname file_number file_size
          (FindTable openF parseF o dbname file_number file_size st).state).result =
        .ok h ∧
      (FindTable openF parseF o dbname file_number file_size
          (FindTable openF parseF o dbname file_number file_size st).state).ops = []) := by
  constructor
  · intro hh
    have heq := FindTable_hit openF parseF o dbname file_number file_size st h hh
    refine ⟨heq, ?_⟩
    rw [heq]
    simp only [cacheValue]
    rw [lookupEntry_modify]
    cases lookupEntry st.entries h <;> simp
  · intro hres
    have hfc := FindTable_ok_findInCache openF parseF o dbname file_number file_size st h hres
    rw [FindTable_hit openF parseF o dbname file_number file_size _ h hfc]
    exact ⟨rfl, rfl⟩

theorem tc_C3_cache_hit_witness :
    findInCache
        (⟨1, [(0, ⟨EncodeFixed64 5, ⟨(), ()⟩, 1, true, 1, .deleteEntry⟩)], []⟩ :
          CacheState (TableAndFile Unit Unit)).entries (EncodeFixed64 5) = some 0 ∧
      (FindTable (fun _ => (Except.error (ErrS.notFound "nope") : Except ErrS Unit))
          (fun _ _ => (Except.ok () : Except ErrS Unit)) ⟨false, []⟩ "db" 5 10
          ⟨1, [(0, ⟨EncodeFixed64 5, ⟨(), ()⟩, 1, true, 1, .deleteEntry⟩)], []⟩ =
        ⟨.ok 0,
         ⟨1, [(0, ⟨EncodeFixed64 5, ⟨(), ()⟩, 2, true, 1, .deleteEntry⟩)], []⟩,
         []⟩ ∧
       cacheValue
          (FindTable (fun _ => (Except.error (ErrS.notFound "nope") : Except ErrS Unit))
              (fun _ _ => (Except.ok () : Except ErrS Unit)) ⟨false, []⟩ "db" 5 10
              ⟨1, [(0, ⟨EncodeFixed64 5, ⟨(), ()⟩, 1, true, 1, .deleteEntry⟩)], []⟩).state 0 =
        cacheValue
          (⟨1, [(0, ⟨EncodeFixed64 5, ⟨(), ()⟩, 1, true, 1, .deleteEntry⟩)], []⟩ :
            CacheState (TableAndFile Unit Unit)) 0) :=
  ⟨by decide,
   (tc_C3_cache_hit _ _ _ _ _ _ _ _).1 (by decide)⟩

/-- C4: on a cache miss, the first directory of the search path whose
probe (open plus parse) succeeds is terminal: FindTable returns OK with a
fresh handle, the pair is inserted into the cache under the 8-byte encoded
identifier with charge exactly 1, one client reference and the DeleteEntry
destructor registered, and the operation log contains only the failed
earlier probes and the successful one — directories after the success
contribute no operation at all. -/
theorem tc_C4_first_success {F T : Type}
    (openF : String → Except ErrS F) (parseF : F → Nat → Except ErrS T)
    (o : Options) (dbname : String) (file_number file_size : Nat)
    (st : CacheState (TableAndFile F T)) (ds₁ : List String) (d : String)
    (ds₂ : List String) (tf : TableAndFile F T)
    (hmiss : findInCache st.entries (EncodeFixed64 file_number) = none)
    (hpath : searchDirs o dbname file_number = ds₁ ++ d :: ds₂)
    (hfail : ∀ d' ∈ ds₁,
      exceptIsOk (probeDir openF parseF file_number file_size d').1 = false)
    (hok : (probeDir openF parseF file_number file_size d).1 = .ok tf) :
    FindTable openF parseF o dbname file_number file_size st =
      ⟨.ok st.nextId,
       (cacheInsert st (EncodeFixed64 file_number) tf 1 .deleteEntry).2,
       (ds₁.map (fun d' => (probeDir openF parseF file_number file_size d').2)).flatten ++
         (probeDir openF parseF file_number file_size d).2⟩ ∧
      lookupEntry
          (cacheInsert st (EncodeFixed64 file_number) tf 1 .deleteEntry).2.entries
          st.nextId =
        some ⟨EncodeFixed64 file_number, tf, 1, true, 1, .deleteEntry⟩ ∧
      (EncodeFixed64 file_number).length = 8 := by
  refine ⟨?_, ?_, ?_⟩
  · unfold FindTable
    simp only [cacheLookup, hmiss]
    rw [hpath]
    rw [findLoop_first_success _ _ ds₁ d ds₂ tf _ st [] hfail hok]
    simp [cacheInsert]
  · simp [cacheInsert, lookupEntry]
  · simp [EncodeFixed64]

theorem tc_C4_first_success_witness :
    findInCache (emptyCache : CacheState (TableAndFile Unit Unit)).entries
        (EncodeFixed64 7) = none ∧
      searchDirs ⟨true, ["d0", "d1"]⟩ "db" 7 = [] ++ "d1" :: ["d0", "db"] ∧
      (∀ d' ∈ ([] : List String),
        exceptIsOk (probeDir
            (fun p => if p = "d1/7.ldb" then (Except.ok () : Except ErrS Unit)
              else .error (.notFound p))
            (fun _ _ => (Except.ok () : Except ErrS Unit)) 7 10 d').1 = false) ∧
      (probeDir
          (fun p => if p = "d1/7.ldb" then (Except.ok () : Except ErrS Unit)
            else .error (.notFound p))
          (fun _ _ => (Except.ok () : Except ErrS Unit)) 7 10 "d1").1 =
        .ok ⟨(), ()⟩ ∧
      (FindTable
          (fun p => if p = "d1/7.ldb" then (Except.ok () : Except ErrS Unit)
            else .error (.notFound p))
          (fun _ _ => (Except.ok () : Except ErrS Unit))
          ⟨true, ["d0", "d1"]⟩ "db" 7 10 emptyCache).result = .ok 0 :=
  ⟨by decide, by decide, by decide, by decide, by
    rw [(tc_C4_first_success
      (fun p => if p = "d1/7.ldb" then (Except.ok () : Except ErrS Unit)
        else .error (.notFound p))
      (fun _ _ => (Except.ok () : Except ErrS Unit)) ⟨true, ["d0", "d1"]⟩ "db" 7 10
      emptyCache [] "d1" ["d0", "db"] ⟨(), ()⟩
      (by decide) (by decide) (by decide) (by decide)).1]
    rfl⟩

/-- C5: inside one probed directory, the current-convention name
"<number>.ldb" is opened first; the legacy name "<number>.sst" is
attempted only when that open fails (on a modern-name success the log
shows no legacy attempt); when only the legacy name opens, resolution
proceeds by parsing that file with the expected size, so a table present
only under the legacy name resolves successfully. -/
theorem tc_C5_legacy_fallback {F T : Type}
    (openF : String → Except ErrS F) (parseF : F → Nat → Except ErrS T)
    (file_number file_size : Nat) (dir : String) (f : F) (e : ErrS) (t : T) :
    (openF (TableFileName dir file_number) = .ok f →
      probeDir openF parseF file_number file_size dir =
        ((parseF f file_size).map (fun t => ⟨f, t⟩),
         [.openFile (TableFileName dir file_number), .parseTable])) ∧
    (openF (TableFileName dir file_number) = .error e →
     openF (SSTTableFileName dir file_number) = .ok f →
      probeDir openF parseF file_number file_size dir =
        ((parseF f file_size).map (fun t => ⟨f, t⟩),
         [.openFile (TableFileName dir file_number),
          .openFile (SSTTableFileName dir file_number), .parseTable])) ∧
    (openF (TableFileName dir file_number) = .error e →
     openF (SSTTableFileName dir file_number) = .ok f →
     parseF f file_size = .ok t →
      (probeDir openF parseF file_number file_size dir).1 = .ok ⟨f, t⟩) := by
  refine ⟨?_, ?_, ?_⟩
  · intro h1
    simp [probeDir, h1]
  · intro h1 h2
    simp [probeDir, h1, h2]
  · intro h1 h2 h3
    simp [probeDir, h1, h2, h3, Except.map]

theorem tc_C5_legacy_fallback_witness :
    (fun p => if p = "d/3.sst" then (Except.ok () : Except ErrS Unit)
        else .error (.notFound p)) (TableFileName "d" 3) =
      .error (.notFound "d/3.ldb") ∧
      (fun p => if p = "d/3.sst" then (Except.ok () : Except ErrS Unit)
          else .error (.notFound p)) (SSTTableFileName "d" 3) = .ok () ∧
      (fun (_ : Unit) (_ : Nat) => (Except.ok () : Except ErrS Unit)) () 10 = .ok () ∧
      (probeDir
          (fun p => if p = "d/3.sst" then (Except.ok () : Except ErrS Unit)
            else .error (.notFound p))
          (fun _ _ => (Except.ok () : Except ErrS Unit)) 3 10 "d").1 = .ok ⟨(), ()⟩ :=
  ⟨by decide, by decide, by decide,
   (tc_C5_legacy_fallback _ _ 3 10 "d" () (.notFound "d/3.ldb") ()).2.2
     (by decide) (by decide) (by decide)⟩

/-- C6: when resolution fails, NewIterator returns the error iterator
carrying exactly the resolution failure (a non-OK status by construction
of ErrS): a sequence that yields no records and reports that terminal
error rather than an empty OK sequence; the tableptr out-parameter stays
null and no cleanup is registered. -/
theorem tc_C6_error_iterator {F T : Type} [Inhabited F] [Inhabited T]
    (openF : String → Except ErrS F) (parseF : F → Nat → Except ErrS T)
    (o : Options) (dbname : String) (ro : ReadOptions)
    (file_number file_size : Nat) (st : CacheState (TableAndFile F T)) (e : ErrS)
    (hfail : (FindTable openF parseF o dbname file_number file_size st).result =
      .error e) :
    (NewIterator openF parseF o dbname ro file_number file_size st).iter =
      NewErrorIterator e ∧
    (NewIterator openF parseF o dbname ro file_number file_size st).iter.core =
      .errorIter e ∧
    (NewIterator openF parseF o dbname ro file_number file_size st).tableOut = none := by
  cases hft : FindTable openF parseF o dbname file_number file_size st with
  | mk r st' ops =>
    rw [hft] at hfail
    simp only at hfail
    subst hfail
    simp [NewIterator, hft, NewErrorIterator]

theorem tc_C6_error_iterator_witness :
    (FindTable (fun p => (Except.error (ErrS.notFound p) : Except ErrS Unit))
        (fun _ _ => (Except.ok () : Except ErrS Unit)) ⟨false, []⟩ "db" 0 10
        emptyCache).result = .error (.notFound "db/0.ldb") ∧
      ((NewIterator (fun p => (Except.error (ErrS.notFound p) : Except ErrS Unit))
          (fun _ _ => (Except.ok () : Except ErrS Unit)) ⟨false, []⟩ "db" ⟨false, true⟩
          0 10 emptyCache).iter = NewErrorIterator (.notFound "db/0.ldb") ∧
        (NewIterator (fun p => (Except.error (ErrS.notFound p) : Except ErrS Unit))
            (fun _ _ => (Except.ok () : Except ErrS Unit)) ⟨false, []⟩ "db" ⟨false, true⟩
            0 10 emptyCache).iter.core = .errorIter (.notFound "db/0.ldb") ∧
        (NewIterator (fun p => (Except.error (ErrS.notFound p) : Except ErrS Unit))
            (fun _ _ => (Except.ok () : Except ErrS Unit)) ⟨false, []⟩ "db" ⟨false, true⟩
            0 10 emptyCache).tableOut = none) :=
  ⟨by decide,
   tc_C6_error_iterator (fun p => (Except.error (ErrS.notFound p) : Except ErrS Unit))
     (fun _ _ => (Except.ok () : Except ErrS Unit)) ⟨false, []⟩ "db" ⟨false, true⟩
     0 10 emptyCache (.notFound "db/0.ldb") (by decide)⟩

/-- C7: on every successful resolution, NewIterator registers exactly one
cleanup action on the returned iterator — UnrefEntry for the handle the
resolution acquired — and creating the iterator releases nothing; running
the iterator's cleanups (which iterator destruction does on every exit
path, exhausted or abandoned) performs exactly one Release of that handle
on the cache. -/
theorem tc_C7_iterator_cleanup {F T : Type} [Inhabited F] [Inhabited T]
    (openF : String → Except ErrS F) (parseF : F → Nat → Except ErrS T)
    (o : Options) (dbname : String) (ro : ReadOptions)
    (file_number file_size : Nat) (st : CacheState (TableAndFile F T)) (h : Nat)
    (hok : (FindTable openF parseF o dbname file_number file_size st).result = .ok h) :
    (NewIterator openF parseF o dbname ro file_number file_size st).iter.cleanups =
      [Cleanup.unrefEntry h] ∧
    (NewIterator openF parseF o dbname ro file_number file_size st).state =
      (FindTable openF parseF o dbname file_number file_size st).state ∧
    runCleanups (NewIterator openF parseF o dbname ro file_number file_size st).state
        (NewIterator openF parseF o dbname ro file_number file_size st).iter.cleanups =
      cacheRelease (FindTable openF parseF o dbname file_number file_size st).state h := by
  cases hft : FindTable openF parseF o dbname file_number file_size st with
  | mk r st' ops =>
    rw [hft] at hok
    simp only at hok
    subst hok
    simp [NewIterator, hft, registerCleanup, tableNewIterator, runCleanups]

theorem tc_C7_iterator_cleanup_witness :
    (FindTable (fun p => if p = "d1/7.ldb" then (Except.ok () : Except ErrS Unit)
          else .error (.notFound p))
        (fun _ _ => (Except.ok () : Except ErrS Unit)) ⟨true, ["d0", "d1"]⟩ "db" 7 10
        emptyCache).result = .ok 0 ∧
      ((NewIterator (fun p => if p = "d1/7.ldb" then (Except.ok () : Except ErrS Unit)
            else .error (.notFound p))
          (fun _ _ => (Except.ok () : Except ErrS Unit)) ⟨true, ["d0", "d1"]⟩ "db"
          ⟨false, true⟩ 7 10 emptyCache).iter.cleanups = [Cleanup.unrefEntry 0] ∧
        (NewIterator (fun p => if p = "d1/7.ldb" then (Except.ok () : Except ErrS Unit)
              else .error (.notFound p))
            (fun _ _ => (Except.ok () : Except ErrS Unit)) ⟨true, ["d0", "d1"]⟩ "db"
            ⟨false, true⟩ 7 10 emptyCache).state =
          (FindTable (fun p => if p = "d1/7.ldb" then (Except.ok () : Except ErrS Unit)
                else .error (.notFound p))
              (fun _ _ => (Except.ok () : Except ErrS Unit)) ⟨true, ["d0", "d1"]⟩ "db"
              7 10 emptyCache).state ∧
        runCleanups
            (NewIterator (fun p => if p = "d1/7.ldb" then (Except.ok () : Except ErrS Unit)
                  else .error (.notFound p))
                (fun _ _ => (Except.ok () : Except ErrS Unit)) ⟨true, ["d0", "d1"]⟩ "db"
                ⟨false, true⟩ 7 10 emptyCache).state
            (NewIterator (fun p => if p = "d1/7.ldb" then (Except.ok () : Except ErrS Unit)
                  else .error (.notFound p))
                (fun _ _ => (Except.ok () : Except ErrS Unit)) ⟨true, ["d0", "d1"]⟩ "db"
                ⟨false, true⟩ 7 10 emptyCache).iter.cleanups =
          cacheRelease
            (FindTable (fun p => if p = "d1/7.ldb" then (Except.ok () : Except ErrS Unit)
                  else .error (.notFound p))
                (fun _ _ => (Except.ok () : Except ErrS Unit)) ⟨true, ["d0", "d1"]⟩ "db"
                7 10 emptyCache).state 0) :=
  ⟨by decide,
   tc_C7_iterator_cleanup (fun p => if p = "d1/7.ldb" then (Except.ok () : Except ErrS Unit)
       else .error (.notFound p))
     (fun _ _ => (Except.ok () : Except ErrS Unit)) ⟨true, ["d0", "d1"]⟩ "db"
     ⟨false, true⟩ 7 10 emptyCache 0 (by decide)⟩

/-- C8: whenever resolution succeeds inside Get, the acquired handle is
released exactly once before Get returns — the returned state is exactly
one Release applied to the post-resolution state, for EVERY possible
outcome of the table's point lookup — and the lookup's status is returned
to the caller unchanged. -/
theorem tc_C8_get_release {F T : Type} [Inhabited F] [Inhabited T]
    (openF : String → Except ErrS F) (parseF : F → Nat → Except ErrS T)
    (o : Options) (dbname : String) (internalGet : T → Except ErrS Unit)
    (file_number file_size : Nat) (st : CacheState (TableAndFile F T)) (h : Nat)
    (hok : (FindTable openF parseF o dbname file_number file_size st).result = .ok h) :
    Get openF parseF o dbname internalGet file_number file_size st =
      (internalGet
         (((cacheValue (FindTable openF parseF o dbname file_number file_size st).state h).getD
             ⟨default, default⟩).table),
       cacheRelease (FindTable openF parseF o dbname file_number file_size st).state h) := by
  cases hft : FindTable openF parseF o dbname file_number file_size st with
  | mk r st' ops =>
    rw [hft] at hok
    simp only at hok
    subst hok
    simp [Get, hft]

theorem tc_C8_get_release_witness :
    (FindTable (fun p => if p = "d1/7.ldb" then (Except.ok () : Except ErrS Unit)
          else .error (.notFound p))
        (fun _ _ => (Except.ok () : Except ErrS Unit)) ⟨true, ["d0", "d1"]⟩ "db" 7 10
        emptyCache).result = .ok 0 ∧
      Get (fun p => if p = "d1/7.ldb" then (Except.ok () : Except ErrS Unit)
          else .error (.notFound p))
        (fun _ _ => (Except.ok () : Except ErrS Unit)) ⟨true, ["d0", "d1"]⟩ "db"
        (fun _ => .error (.corruption "bad block")) 7 10 emptyCache =
      ((fun (_ : Unit) => (Except.error (ErrS.corruption "bad block") : Except ErrS Unit))
         (((cacheValue (FindTable (fun p => if p = "d1/7.ldb" then (Except.ok () : Except ErrS Unit)
               else .error (.notFound p))
             (fun _ _ => (Except.ok () : Except ErrS Unit)) ⟨true, ["d0", "d1"]⟩ "db" 7 10
             emptyCache).state 0).getD ⟨default, default⟩).table),
       cacheRelease (FindTable (fun p => if p = "d1/7.ldb" then (Except.ok () : Except ErrS Unit)
             else .error (.notFound p))
           (fun _ _ => (Except.ok () : Except ErrS Unit)) ⟨true, ["d0", "d1"]⟩ "db" 7 10
           emptyCache).state 0) :=
  ⟨by decide,
   tc_C8_get_release (fun p => if p = "d1/7.ldb" then (Except.ok () : Except ErrS Unit)
       else .error (.notFound p))
     (fun _ _ => (Except.ok () : Except ErrS Unit)) ⟨true, ["d0", "d1"]⟩ "db"
     (fun _ => .error (.corruption "bad block")) 7 10 emptyCache 0 (by decide)⟩

/-- Detaching entries from the cache table changes no reference count. -/
theorem detachList_refs {V : Type} (es : List (Nat × CEntry V)) (k : List Nat)
    (h : ∀ p ∈ es, 1 ≤ p.2.refs) :
    ∀ p ∈ detachList es k, 1 ≤ p.2.refs := by
  induction es with
  | nil => simp [detachList]
  | cons q rest ih =>
    obtain ⟨j, f⟩ := q
    have hf : 1 ≤ f.refs := h (j, f) (List.mem_cons_self _ _)
    have hrest := ih (fun p hp => h p (List.mem_cons_of_mem _ hp))
    intro p hp
    simp only [detachList] at hp
    by_cases hd : f.inCache = true ∧ f.key = k
    · rw [if_pos hd] at hp
      rcases List.mem_cons.1 hp with hhead | htail
      · subst hhead; exact hf
      · exact hrest p htail
    · rw [if_neg hd] at hp
      rcases List.mem_cons.1 hp with hhead | htail
      · subst hhead; exact hf
      · exact hrest p htail

/-- C9: Evict removes the entry under the encoded identifier from the
cache table immediately: afterwards no in-cache entry carries that key, so
a following FindTable takes the miss path and re-runs the directory search
and can only return a fresh handle, never the old one. Eviction destroys
nothing by itself while references are outstanding — the detached entry
stays alive with its value intact and the destruction log unchanged — and
the entry is destroyed exactly when its last outstanding reference is
released. -/
theorem tc_C9_evict {F T : Type}
    (openF : String → Except ErrS F) (parseF : F → Nat → Except ErrS T)
    (o : Options) (dbname : String) (file_number file_size : Nat)
    (st : CacheState (TableAndFile F T)) (oldId : Nat)
    (e : CEntry (TableAndFile F T))
    (hrefs : ∀ p ∈ st.entries, 1 ≤ p.2.refs)
    (hids : ∀ p ∈ st.entries, p.1 < st.nextId)
    (hold : lookupEntry st.entries oldId = some e)
    (hkey : e.key = EncodeFixed64 file_number)
    (hin : e.inCache = true) :
    findInCache (Evict st file_number).entries (EncodeFixed64 file_number) = none ∧
    (Evict st file_number).destroyed = st.destroyed ∧
    lookupEntry (Evict st file_number).entries oldId = some { e with inCache := false } ∧
    (e.refs = 1 →
      (oldId, e.value) ∈ (cacheRelease (Evict st file_number) oldId).destroyed) ∧
    FindTable openF parseF o dbname file_number file_size (Evict st file_number) =
      findLoop (probeDir openF parseF file_number file_size)
        (EncodeFixed64 file_number) (searchDirs o dbname file_number)
        (.notFound "table file not found") (Evict st file_number) [] ∧
    (∀ h', (FindTable openF parseF o dbname file_number file_size
        (Evict st file_number)).result = .ok h' → h' ≠ oldId) := by
  have hsweep := sweepAux_noDead (detachList st.entries (EncodeFixed64 file_number))
    (detachList_refs st.entries (EncodeFixed64 file_number) hrefs)
  have hev : Evict st file_number =
      { st with entries := detachList st.entries (EncodeFixed64 file_number) } := by
    simp [Evict, cacheErase, hsweep]
  have hnone : findInCache (Evict st file_number).entries (EncodeFixed64 file_number) =
      none := by
    rw [hev]
    exact findInCache_detachList _ _
  have hlook : lookupEntry (Evict st file_number).entries oldId =
      some { e with inCache := false } := by
    rw [hev]
    show lookupEntry (detachList st.entries (EncodeFixed64 file_number)) oldId = _
    rw [lookupEntry_detachList, hold]
    simp only [Option.map_some']
    rw [if_pos ⟨hin, hkey⟩]
  have hft : FindTable openF parseF o dbname file_number file_size (Evict st file_number) =
      findLoop (probeDir openF parseF file_number file_size)
        (EncodeFixed64 file_number) (searchDirs o dbname file_number)
        (.notFound "table file not found") (Evict st file_number) [] := by
    unfold FindTable
    simp only [cacheLookup, hnone]
  refine ⟨hnone, ?_, hlook, ?_, hft, ?_⟩
  · rw [hev]
  · intro h1
    unfold cacheRelease
    have hlook2 : lookupEntry
        (modifyEntry (Evict st file_number).entries oldId
          (fun e => { e with refs := e.refs - 1 })) oldId =
        some { e with inCache := false, refs := 0 } := by
      rw [lookupEntry_modify, hlook]
      simp [h1]
    have hdead := mem_sweepAux_dead _ _ _ hlook2 rfl rfl
    simp only [List.mem_append]
    exact Or.inr hdead
  · intro h' hres
    rw [hft] at hres
    have hnext := (findLoop_ok_spec _ _ _ _ _ _ _ hres).1
    have hmem := lookupEntry_mem st.entries oldId e hold
    have hlt := hids (oldId, e) hmem
    have : (Evict st file_number).nextId = st.nextId := by rw [hev]
    omega

theorem tc_C9_evict_witness :
    (∀ p ∈ (⟨1, [(0, ⟨EncodeFixed64 9, ⟨(), ()⟩, 1, true, 1, .deleteEntry⟩)], []⟩ :
        CacheState (TableAndFile Unit Unit)).entries, 1 ≤ p.2.refs) ∧
      (∀ p ∈ (⟨1, [(0, ⟨EncodeFixed64 9, ⟨(), ()⟩, 1, true, 1, .deleteEntry⟩)], []⟩ :
          CacheState (TableAndFile Unit Unit)).entries, p.1 < 1) ∧
      lookupEntry (⟨1, [(0, ⟨EncodeFixed64 9, ⟨(), ()⟩, 1, true, 1, .deleteEntry⟩)], []⟩ :
          CacheState (TableAndFile Unit Unit)).entries 0 =
        some ⟨EncodeFixed64 9, ⟨(), ()⟩, 1, true, 1, .deleteEntry⟩ ∧
      (findInCache (Evict (⟨1, [(0, ⟨EncodeFixed64 9, ⟨(), ()⟩, 1, true, 1, .deleteEntry⟩)],
            []⟩ : CacheState (TableAndFile Unit Unit)) 9).entries (EncodeFixed64 9) = none ∧
        (Evict (⟨1, [(0, ⟨EncodeFixed64 9, ⟨(), ()⟩, 1, true, 1, .deleteEntry⟩)], []⟩ :
            CacheState (TableAndFile Unit Unit)) 9).destroyed = [] ∧
        lookupEntry (Evict (⟨1, [(0, ⟨EncodeFixed64 9, ⟨(), ()⟩, 1, true, 1,
            .deleteEntry⟩)], []⟩ : CacheState (TableAndFile Unit Unit)) 9).entries 0 =
          some ⟨EncodeFixed64 9, ⟨(), ()⟩, 1, false, 1, .deleteEntry⟩ ∧
        ((⟨EncodeFixed64 9, ⟨(), ()⟩, 1, true, 1,
            .deleteEntry⟩ : CEntry (TableAndFile Unit Unit)).refs = 1 →
          (0, (⟨(), ()⟩ : TableAndFile Unit Unit)) ∈
            (cacheRelease (Evict (⟨1, [(0, ⟨EncodeFixed64 9, ⟨(), ()⟩, 1, true, 1,
                .deleteEntry⟩)], []⟩ : CacheState (TableAndFile Unit Unit)) 9) 0).destroyed) ∧
        FindTable (fun p => (Except.error (ErrS.notFound p) : Except ErrS Unit))
            (fun _ _ => (Except.ok () : Except ErrS Unit)) ⟨false, []⟩ "db" 9 10
            (Evict (⟨1, [(0, ⟨EncodeFixed64 9, ⟨(), ()⟩, 1, true, 1, .deleteEntry⟩)],
              []⟩ : CacheState (TableAndFile Unit Unit)) 9) =
          findLoop (probeDir (fun p => (Except.error (ErrS.notFound p) : Except ErrS Unit))
              (fun _ _ => (Except.ok () : Except ErrS Unit)) 9 10)
            (EncodeFixed64 9) (searchDirs ⟨false, []⟩ "db" 9)
            (.notFound "table file not found")
            (Evict (⟨1, [(0, ⟨EncodeFixed64 9, ⟨(), ()⟩, 1, true, 1, .deleteEntry⟩)],
              []⟩ : CacheState (TableAndFile Unit Unit)) 9) [] ∧
        (∀ h', (FindTable (fun p => (Except.error (ErrS.notFound p) : Except ErrS Unit))
              (fun _ _ => (Except.ok () : Except ErrS Unit)) ⟨false, []⟩ "db" 9 10
              (Evict (⟨1, [(0, ⟨EncodeFixed64 9, ⟨(), ()⟩, 1, true, 1, .deleteEntry⟩)],
                []⟩ : CacheState (TableAndFile Unit Unit)) 9)).result = .ok h' →
          h' ≠ 0)) :=
  ⟨by decide, by decide, by decide,
   tc_C9_evict (fun p => (Except.error (ErrS.notFound p) : Except ErrS Unit))
     (fun _ _ => (Except.ok () : Except ErrS Unit)) ⟨false, []⟩ "db" 9 10
     ⟨1, [(0, ⟨EncodeFixed64 9, ⟨(), ()⟩, 1, true, 1, .deleteEntry⟩)], []⟩ 0
     ⟨EncodeFixed64 9, ⟨(), ()⟩, 1, true, 1, .deleteEntry⟩
     (by decide) (by decide) (by decide) (by decide) (by decide)⟩

/-- C10: when inside one directory the current-convention (.ldb) open
fails and the legacy-convention (.sst) open also fails, the status
recorded as that directory's failure is the one from the current-
convention attempt, for every possible legacy-open error — the legacy
error is discarded and can never be surfaced. -/
theorem tc_C10_modern_error_kept {F T : Type}
    (openF : String → Except ErrS F) (parseF : F → Nat → Except ErrS T)
    (file_number file_size : Nat) (dir : String) (e₁ e₂ : ErrS)
    (h1 : openF (TableFileName dir file_number) = .error e₁)
    (h2 : openF (SSTTableFileName dir file_number) = .error e₂) :
    probeDir openF parseF file_number file_size dir =
      (.error e₁,
       [.openFile (TableFileName dir file_number),
        .openFile (SSTTableFileName dir file_number)]) := by
  simp [probeDir, h1, h2]

theorem tc_C10_modern_error_kept_witness :
    (fun p => if p = "d/3.ldb" then (Except.error (ErrS.ioError "no permission") :
          Except ErrS Unit)
        else .error (.notFound p)) (TableFileName "d" 3) =
      .error (.ioError "no permission") ∧
      (fun p => if p = "d/3.ldb" then (Except.error (ErrS.ioError "no permission") :
            Except ErrS Unit)
          else .error (.notFound p)) (SSTTableFileName "d" 3) =
        .error (.notFound "d/3.sst") ∧
      probeDir (fun p => if p = "d/3.ldb" then (Except.error (ErrS.ioError "no permission") :
            Except ErrS Unit)
          else .error (.notFound p))
        (fun _ _ => (Except.ok () : Except ErrS Unit)) 3 10 "d" =
      (.error (.ioError "no permission"),
       [.openFile (TableFileName "d" 3), .openFile (SSTTableFileName "d" 3)]) :=
  ⟨by decide, by decide,
   tc_C10_modern_error_kept (fun p => if p = "d/3.ldb" then
       (Except.error (ErrS.ioError "no permission") : Except ErrS Unit)
       else .error (.notFound p))
     (fun _ _ => (Except.ok () : Except ErrS Unit)) 3 10 "d"
     (.ioError "no permission") (.notFound "d/3.sst") (by decide) (by decide)⟩

end LevelDB
